import Mathlib

/-!
Verification of the `SwarmSpawner` implementation in
`src/dockerspawner/spawners.py` (a JupyterHub spawner driving Docker Swarm
services).  The Python code is shallowly embedded: Python dicts become
insertion-ordered field sequences, the remote Docker API is an explicit
response parameter, exceptions become `Except`, and the in-place mutation of
mount dicts is made observable through an explicit store of mount cells
addressed by references.
-/

namespace SwarmSpawner

/-! ## Configuration values

Python service configurations are nested dicts whose leaves are strings,
numbers and lists.  List elements that matter to the code are either plain
strings or mount dicts; a mount dict is modelled as a reference (`Item.mref`)
into a mount store so that in-place mutation is observable. -/

/-- An element of a Python list inside a service configuration: a string, or a
reference to a mount dict held in the mount store. -/
inductive Item where
  | str (s : String)
  | mref (i : Nat)
deriving DecidableEq, Repr

mutual
/-- A Python value inside a service configuration: a string, a number, a list
or a nested dict.  `CVal` and the dict fields `CFields` are mutual so that
recursion over nested configurations is structural, hence computable inside
proofs. -/
inductive CVal where
  | str (s : String)
  | num (q : ℚ)
  | list (xs : List Item)
  | dict (m : CFields)
/-- The fields of a Python dict, in insertion order. -/
inductive CFields where
  | nil
  | cons (k : String) (v : CVal) (rest : CFields)
end

deriving instance DecidableEq for CVal

deriving instance DecidableEq for CFields

/-- Plain structural induction for `CFields` (the joint recursor of the
mutual pair is not usable by the `induction` tactic directly). -/
@[induction_eliminator]
theorem CFields.induct (motive : CFields → Prop) (nil : motive .nil)
    (cons : ∀ k v rest, motive rest → motive (.cons k v rest)) :
    ∀ l, motive l
  | .nil => nil
  | .cons k v rest => cons k v rest (CFields.induct motive nil cons rest)

/-- Errors of the embedded code.  `configTypeMismatch` is the `assert` in
`_update_config` (line 425); `labelsUpdateError` is the `AttributeError` that
`config["labels"].update(...)` would raise on a non-dict value;
`notFound` and `apiError` are docker's `NotFound` and `APIError`, the latter
tagged with `err.is_server_error()`. -/
inductive Err where
  | configTypeMismatch
  | labelsUpdateError
  | notFound
  | apiError (server : Bool) (msg : String)
deriving DecidableEq, Repr

/-- Lookup in an insertion-ordered association list (Python `d[k]` / `k in d`
for the flattened dicts, whose keys are paths). -/
def alookup {α β : Type} [DecidableEq α] : List (α × β) → α → Option β
  | [], _ => none
  | (k, v) :: rest, a => if k = a then some v else alookup rest a

/-- Assignment `d[k] = v` on an insertion-ordered association list: an existing
key keeps its position, a new key is appended at the end, as for Python dicts. -/
def aset {α β : Type} [DecidableEq α] : List (α × β) → α → β → List (α × β)
  | [], a, b => [(a, b)]
  | (k, v) :: rest, a, b => if k = a then (a, b) :: rest else (k, v) :: aset rest a b

/-- Lookup in a nested-dict field sequence (Python `d[k]` / `k in d`). -/
def flookup : CFields → String → Option CVal
  | .nil, _ => none
  | .cons k v rest, a => if k = a then some v else flookup rest a

/-- Assignment `d[k] = v` on a dict: an existing key keeps its position, a new
key is appended at the end, as for Python dicts. -/
def fset : CFields → String → CVal → CFields
  | .nil, a, b => .cons a b .nil
  | .cons k v rest, a, b =>
      if k = a then .cons a b rest else .cons k v (fset rest a b)

/-- Concatenation of two field sequences. -/
def fappend : CFields → CFields → CFields
  | .nil, ys => ys
  | .cons k v rest, ys => .cons k v (fappend rest ys)

/-- Python truthiness of a dict: the empty dict is falsy. -/
def CFields.isEmpty : CFields → Bool
  | .nil => true
  | .cons _ _ _ => false

/-- The keys of a dict, in order. -/
def keysF : CFields → List String
  | .nil => []
  | .cons k _ rest => k :: keysF rest

/-! ## `_update_config` (lines 418-430)

The code flattens both nested dicts with `flatten_dict.flatten` (keys become
tuples of path components), runs the update loop on the flat dicts, and
unflattens the result. -/

mutual
/-- The flattened entries contributed by one dict entry `(k, v)`: nested
dicts recurse with `k` prefixed to every path, leaves become one entry. -/
def flattenVal (k : String) : CVal → List (List String × CVal)
  | CVal.dict m => (flatten m).map (fun p => (k :: p.1, p.2))
  | v => [([k], v)]
/-- Flattening of a nested configuration, as `flatten_dict.flatten`: every
leaf is keyed by its path of dict keys. -/
def flatten : CFields → List (List String × CVal)
  | .nil => []
  | .cons k v rest => flattenVal k v ++ flatten rest
end

/-- Store a value at a key path inside a nested configuration, creating nested
dicts along the path (the assignment step of `flatten_dict.unflatten`). -/
def setPath : CFields → List String → CVal → CFields
  | cfg, [], _ => cfg
  | cfg, [k], v => fset cfg k v
  | cfg, k :: ks, v =>
      match flookup cfg k with
      | some (CVal.dict m) => fset cfg k (CVal.dict (setPath m ks v))
      | _ => fset cfg k (CVal.dict (setPath .nil ks v))

/-- Rebuild a nested configuration from a flat one, as
`flatten_dict.unflatten`. -/
def unflatten (flat : List (List String × CVal)) : CFields :=
  flat.foldl (fun cfg p => setPath cfg p.1 p.2) .nil

/-- One step of the `for opt, val1 in update.items()` loop of `_update_config`
(lines 422-428): a list-valued override whose key already exists concatenates
override-first and requires (`assert`, line 425) the existing value to be a
list too; every other override value replaces or introduces the key. -/
def mergeStep (config : List (List String × CVal)) (kv : List String × CVal) :
    Except Err (List (List String × CVal)) :=
  match kv.2 with
  | CVal.list xs =>
      match alookup config kv.1 with
      | some (CVal.list ys) => .ok (aset config kv.1 (CVal.list (xs ++ ys)))
      | some _ => .error .configTypeMismatch
      | none => .ok (aset config kv.1 (CVal.list xs))
  | v => .ok (aset config kv.1 v)

/-- The update loop of `_update_config` over the flattened override, in
insertion order. -/
def mergeFlat (config : List (List String × CVal)) :
    List (List String × CVal) → Except Err (List (List String × CVal))
  | [] => .ok config
  | kv :: rest =>
      match mergeStep config kv with
      | .ok c => mergeFlat c rest
      | .error e => .error e

/-- `_update_config(config, update)` (lines 418-430): flatten both, run the
update loop, unflatten the result.  The `assert` failure surfaces as
`Err.configTypeMismatch`. -/
def _update_config (config update : CFields) : Except Err CFields :=
  match mergeFlat (flatten config) (flatten update) with
  | .ok m => .ok (unflatten m)
  | .error e => .error e

/-! ## Mount store and template formatting

`_format_mount` (lines 219-225) writes the formatted `target` and `source`
back into the mount dict it was given, so mount dicts live in an explicit
store and are addressed by `Item.mref` references. -/

/-- A mount dict.  Only the two fields the code touches are modelled. -/
structure MountCell where
  target : String
  source : String
deriving DecidableEq, Repr

/-- The opening brace character of a template placeholder. -/
def lbrace : Char := Char.ofNat 123

/-- The closing brace character of a template placeholder. -/
def rbrace : Char := Char.ofNat 125

/-- Single pass of `str.format`-style substitution over a character list,
driven by a fuel counter: every step passes a suffix of the tail to the
recursive call, so the input length is enough fuel and the zero-fuel branch
is unreachable from `formatString`.  An unknown placeholder substitutes the
empty string; the code would raise a `KeyError` there, a path outside every
claim. -/
def formatCharsF (ns : List (String × String)) : Nat → List Char → List Char
  | 0, _ => []
  | _ + 1, [] => []
  | fuel + 1, c :: cs =>
      if c = lbrace then
        ((alookup ns (String.mk (cs.takeWhile (· ≠ rbrace)))).getD "").data
          ++ formatCharsF ns fuel ((cs.dropWhile (· ≠ rbrace)).drop 1)
      else c :: formatCharsF ns fuel cs

/-- `self.format_string(s)`: substitute the template namespace into `s`. -/
def formatString (ns : List (String × String)) (s : String) : String :=
  String.mk (formatCharsF ns s.data.length s.data)

/-- `_format_mount` (lines 219-225).  A string mount is rebuilt functionally;
a dict mount has its `target` and `source` fields overwritten in place in the
store and the same reference is returned. -/
def _format_mount (ns : List (String × String)) (store : List MountCell) :
    Item → Item × List MountCell
  | .str s => (.str (formatString ns s), store)
  | .mref i =>
      let cell := store.getD i ⟨"", ""⟩
      (.mref i, store.set i ⟨formatString ns cell.target, formatString ns cell.source⟩)

/-- The list comprehension `[self._format_mount(mount) for mount in mounts]`
(line 270), threading the store left to right. -/
def formatMounts (ns : List (String × String)) (store : List MountCell) :
    List Item → List Item × List MountCell
  | [] => ([], store)
  | m :: rest =>
      let p := _format_mount ns store m
      let q := formatMounts ns p.2 rest
      (p.1 :: q.1, q.2)

/-! ## The spawner and `get_service_config` (lines 227-272) -/

/-- A selected profile (the dict `options_from_form` returns): its `name` and
its `config` fragment. -/
structure ProfileM where
  name : String
  config : CFields

/-- The spawner's inputs to spec building.  `username` is `self.user.name`,
`servername` is `self.name`, `serviceName` is `self.service_name`; `cmd`,
`args` and `envPairs` are `self.cmd`, `self.get_args()` and
`self.get_env()`; the four resource traits may be unset (`none`);
`defaultConfig` is `self.default_config` and `userOptions` is
`self.user_options` (`none` for the falsy empty dict). -/
structure SpawnerM where
  username : String
  servername : String
  serviceName : String
  cmd : List String
  args : List String
  envPairs : List (String × String)
  cpuLimit : Option ℚ
  memLimit : Option (String ⊕ ℚ)
  cpuGuarantee : Option ℚ
  memGuarantee : Option (String ⊕ ℚ)
  defaultConfig : CFields
  userOptions : Option ProfileM
  port : Nat

/-- Python truthiness of an optional number (`None` and `0` are falsy). -/
def qTruthy : Option ℚ → Bool
  | none => false
  | some q => q != 0

/-- Python truthiness of an optional memory value (string or number). -/
def memTruthy : Option (String ⊕ ℚ) → Bool
  | none => false
  | some (.inl s) => !s.isEmpty
  | some (.inr q) => q != 0

/-- A memory value as stored in the resources block: strings are lower-cased
(`mem.lower()`), numbers pass through (lines 240 and 245). -/
def memVal : String ⊕ ℚ → CVal
  | .inl s => .str s.toLower
  | .inr q => .num q

/-- The `resources` dict of `get_service_config` (lines 235-246), in
insertion order; CPU values are scaled by `10e9` (i.e. `10^10`). -/
def resourcesBlock (sp : SpawnerM) : CFields :=
  fappend
    (if qTruthy sp.cpuLimit then
        .cons "cpu_limit" (CVal.num ((sp.cpuLimit.getD 0) * 10000000000)) .nil
      else .nil)
    (fappend
      (if memTruthy sp.memLimit then
          .cons "mem_limit" (memVal (sp.memLimit.getD (.inr 0))) .nil
        else .nil)
      (fappend
        (if qTruthy sp.cpuGuarantee then
            .cons "cpu_reservation"
              (CVal.num ((sp.cpuGuarantee.getD 0) * 10000000000)) .nil
          else .nil)
        (if memTruthy sp.memGuarantee then
            .cons "mem_reservation" (memVal (sp.memGuarantee.getD (.inr 0))) .nil
          else .nil)))

/-- The base config of `get_service_config` (lines 228-247): name, command,
args, env serialized as `K=V` strings, and the resources block when any
resource trait is set. -/
def buildBase (sp : SpawnerM) : CFields :=
  .cons "name" (CVal.str sp.serviceName)
    (.cons "command" (CVal.list (sp.cmd.map .str))
      (.cons "args" (CVal.list (sp.args.map .str))
        (.cons "env"
          (CVal.list (sp.envPairs.map (fun kv => .str (kv.1 ++ "=" ++ kv.2))))
          (if (resourcesBlock sp).isEmpty then .nil
            else .cons "resources" (CVal.dict (resourcesBlock sp)) .nil))))

/-- The merge stage of `get_service_config` (lines 249-256): merge in
`default_config` when truthy, then the selected profile's `config` fragment.
The bare name `default_config` on line 250 is read as `self.default_config`,
the evident referent (as written the line raises `NameError`). -/
def mergedConfig (sp : SpawnerM) : Except Err CFields :=
  match (if sp.defaultConfig.isEmpty then .ok (buildBase sp)
          else _update_config (buildBase sp) sp.defaultConfig) with
  | .error e => .error e
  | .ok cfg1 =>
      match sp.userOptions with
      | none => .ok cfg1
      | some prof => _update_config cfg1 prof.config

/-- `profile_name` (lines 252-254): empty unless a profile was selected. -/
def profileName (sp : SpawnerM) : String :=
  match sp.userOptions with
  | none => ""
  | some prof => prof.name

/-- The computed identity labels of lines 258-262. -/
def computedLabels (sp : SpawnerM) : CFields :=
  .cons "org.jupyterhub.user" (CVal.str sp.username)
    (.cons "org.jupyterhub.server" (CVal.str sp.servername)
      (.cons "org.jupyterhub.profile" (CVal.str (profileName sp)) .nil))

/-- Python `dict.update`: write every entry of the second dict into the first,
in order. -/
def dictUpdate : CFields → CFields → CFields
  | m, .nil => m
  | m, .cons k v rest => dictUpdate (fset m k v) rest

/-- The label stage of `get_service_config` (lines 263-266):
`config["labels"].update(labels)` when a labels dict is present (a non-dict
value there would raise `AttributeError`), otherwise `config["labels"] =
labels`. -/
def withLabels (sp : SpawnerM) (cfg : CFields) : Except Err CFields :=
  match flookup cfg "labels" with
  | some (CVal.dict m) =>
      .ok (fset cfg "labels" (CVal.dict (dictUpdate m (computedLabels sp))))
  | some _ => .error .labelsUpdateError
  | none => .ok (fset cfg "labels" (CVal.dict (computedLabels sp)))

/-- The template namespace seen by `self.format_string`.  The override
`templete_namespace` on line 409 misspells the base-class hook
`template_namespace` and is therefore never called; the effective namespace
is the base `Spawner` one, which carries the user and server names. -/
def tmplNamespace (sp : SpawnerM) : List (String × String) :=
  [("username", sp.username), ("servername", sp.servername)]

/-- `get_service_config` (lines 227-272): build the base config, merge the
configured layers, install the identity labels, then format the mounts
(mutating dict mounts in the store).  A truthy non-list `mounts` value would
be iterated by Python; that configuration shape is outside every claim and is
left unchanged here. -/
def get_service_config (sp : SpawnerM) (store : List MountCell) :
    Except Err (CFields × List MountCell) :=
  match mergedConfig sp with
  | .error e => .error e
  | .ok cfg1 =>
      match withLabels sp cfg1 with
      | .error e => .error e
      | .ok cfg2 =>
          match flookup cfg2 "mounts" with
          | some (CVal.list ms) =>
              if ms.isEmpty then .ok (cfg2, store)
              else
                let p := formatMounts (tmplNamespace sp) store ms
                .ok (fset cfg2 "mounts" (CVal.list p.1), p.2)
          | some _ => .ok (cfg2, store)
          | none => .ok (cfg2, store)

/-! ## Session state, lookup, stop, poll, readiness wait -/

/-- The spawner's mutable session state: the cached service id and the API
token. -/
structure SpState where
  service_id : String
  api_token : String
deriving DecidableEq, Repr

/-- `clear_state` (lines 177-179): the service id is reset; the base-class
part of `clear_state` is external to this repository. -/
def clear_state (st : SpState) : SpState :=
  { st with service_id := "" }

/-- The attributes of a found service that the code reads: its `id` and the
env list `Spec.TaskTemplate.ContainerSpec.Env`. -/
structure ServiceAttrs where
  id : String
  env : List String
deriving DecidableEq, Repr

/-- The outcome of the remote `services.get` call. -/
inductive SvcResp where
  | found (svc : ServiceAttrs)
  | notFound
  | apiError (server : Bool) (msg : String)
deriving DecidableEq, Repr

/-- The `services.get` call as an `Except`: `NotFound` and `APIError` are the
raised exceptions. -/
def services_get_call (resp : SvcResp) : Except Err ServiceAttrs :=
  match resp with
  | .found svc => .ok svc
  | .notFound => .error .notFound
  | .apiError server msg => .error (.apiError server msg)

/-- `get_service` (lines 196-217): cache the id on success; on `NotFound`
clear the id and report the service absent; on a server-side `APIError`
likewise; on a client-side `APIError` re-raise the same error. -/
def get_service (st : SpState) (resp : SvcResp) :
    Except Err (Option ServiceAttrs × SpState) :=
  match services_get_call resp with
  | .ok svc => .ok (some svc, { st with service_id := svc.id })
  | .error .notFound => .ok (none, { st with service_id := "" })
  | .error (.apiError true _) => .ok (none, { st with service_id := "" })
  | .error (.apiError false msg) => .error (.apiError false msg)
  | .error e => .error e

/-- The outcome of the remote `remove_service` call. -/
inductive RemoveResp where
  | removed (result : Bool)
  | notFound
  | apiError (server : Bool) (msg : String)
deriving DecidableEq, Repr

/-- The `remove_service` call as an `Except`. -/
def remove_service_call (resp : RemoveResp) : Except Err Bool :=
  match resp with
  | .removed b => .ok b
  | .notFound => .error .notFound
  | .apiError server msg => .error (.apiError server msg)

/-- `stop` (lines 317-346): attempt the removal, swallow `NotFound` and
`APIError` (they are only logged), and always run `clear_state`.  Logging is
not modelled. -/
def stop (st : SpState) (resp : RemoveResp) : Except Err SpState :=
  match remove_service_call resp with
  | .ok _ => .ok (clear_state st)
  | .error .notFound => .ok (clear_state st)
  | .error (.apiError _ _) => .ok (clear_state st)
  | .error e => .error e

/-- An orchestrator task as the code reads it: `ID`, `Status.State`,
`Status.Err`. -/
structure Task where
  id : String
  state : String
  err : String
deriving DecidableEq, Repr

/-- The `for task in tasks` loop of `poll` (lines 357-378): remember the last
running task, and count the `stop()` calls issued for rejected tasks. -/
def pollScan : List Task → Option Task → Nat → Option Task × Nat
  | [], running, stops => (running, stops)
  | t :: rest, running, stops =>
      pollScan rest
        (if t.state = "running" then some t else running)
        (if t.state = "rejected" then stops + 1 else stops)

/-- The observable outcome of one `poll` call: the JupyterHub verdict
(`none` means the server is running/healthy, `some 0` means it exited), the
number of `stop()` (service-removal) calls issued, whether the empty-task
warning was logged, and the resulting state. -/
structure PollOut where
  verdict : Option Nat
  stopCalls : Nat
  warned : Bool
  st : SpState
deriving DecidableEq, Repr

/-- `poll` (lines 348-383), given the task list the orchestrator returned.
The free name `docker` on line 352 is read as `self.docker`, the evident
referent (as written the line raises `NameError`).  Each rejected task
triggers one `stop()` call, which clears the state. -/
def poll (st : SpState) (tasks : List Task) : PollOut :=
  let p := pollScan tasks none 0
  { verdict := if p.1.isSome then none else some 0,
    stopCalls := p.2,
    warned := tasks.isEmpty,
    st := if 0 < p.2 then clear_state st else st }

/-- The outcome of the `for task in tasks` loop inside
`wait_for_running_tasks`: either the early `return False`, or the loop
finished with the final `running`/`preparing` flags. -/
inductive ForRes where
  | earlyFalse
  | done (running preparing : Bool)
deriving DecidableEq, Repr

/-- The `for task in tasks` loop of `wait_for_running_tasks`
(lines 392-404): flags are updated first, then `return False` fires on a
rejected task or whenever `attempt > max_attempts` -- a check that only runs
once per task, so never on an empty task list. -/
def forTasks (attempt maxAttempts : Nat) (running preparing : Bool) :
    List Task → ForRes
  | [] => .done running preparing
  | t :: rest =>
      let running' := if t.state = "running" then true else running
      let preparing' := if t.state = "preparing" then true else preparing
      if t.state = "rejected" ∨ maxAttempts < attempt then ForRes.earlyFalse
      else forTasks attempt maxAttempts running' preparing' rest

/-- How a run of `wait_for_running_tasks` ended: the explicit `return False`,
the implicit `return None` when the `while` condition sees `running` (the
function never returns `True`), or still looping (with the current attempt
count) when the supplied task-list responses ran out. -/
inductive WaitRes where
  | returnedFalse
  | returnedNone
  | looping (attempt : Nat)
deriving DecidableEq, Repr

/-- `wait_for_running_tasks` (lines 385-407) over a finite list of task-list
responses, one per `while` iteration.  `attempt` only advances on iterations
with no preparing task; a running task ends the loop (with Python `None`)
only after the whole task list of that iteration was scanned. -/
def wait_for_running_tasks (maxAttempts attempt : Nat) :
    List (List Task) → WaitRes
  | [] => .looping attempt
  | ts :: rest =>
      match forTasks attempt maxAttempts false false ts with
      | .earlyFalse => .returnedFalse
      | .done running preparing =>
          let attempt' := if preparing then attempt else attempt + 1
          if running then .returnedNone
          else wait_for_running_tasks maxAttempts attempt' rest

/-! ## `start` (lines 274-315) -/

/-- A docker call issued by `start` (the readiness loop's task listings are
carried separately by `DockerEnv.waitResps`). -/
inductive Effect where
  | getServiceCall
  | createServiceCall (cfg : CFields)

/-- The remote responses a run of `start` consumes. -/
structure DockerEnv where
  lookupResp : SvcResp
  createdId : String
  waitResps : List (List Task)

/-- The observable outcome of `start`. -/
structure StartOut where
  st : SpState
  store : List MountCell
  effects : List Effect
  ip : String
  port : Nat
  waitResult : Option WaitRes

/-- The first env entry starting with the well-known key (the `for line in
envs` loop with `break`, lines 304-307). -/
def findToken (envs : List String) : Option String :=
  envs.find? (fun line => "JPY_API_TOKEN=".data.isPrefixOf line.data)

/-- Python `line.split("=", 1)[1]`: everything after the first `=`. -/
def splitValueAfterEq (line : String) : String :=
  String.mk ((line.data.dropWhile (· ≠ '=')).drop 1)

/-- `start` (lines 274-315).  Lookup first; when no service is found, build
the spec and create the service (the `_parse_config` call on line 285 maps
the nested options onto external `docker.types` constructors and is not
modelled; as written it passes `config` for `self` and raises `TypeError`),
then run the readiness wait with the default `max_attempts=20`.  When the
lookup finds a service, adopt it: recover the API token from its env and
issue no create call.  Both branches return the service name and port. -/
def start (sp : SpawnerM) (st : SpState) (store : List MountCell)
    (env : DockerEnv) : Except Err StartOut :=
  match get_service st env.lookupResp with
  | .error e => .error e
  | .ok (none, st1) =>
      match get_service_config sp store with
      | .error e => .error e
      | .ok (cfg, store') =>
          .ok { st := { st1 with service_id := env.createdId },
                store := store',
                effects := [.getServiceCall, .createServiceCall cfg],
                ip := sp.serviceName,
                port := sp.port,
                waitResult := some (wait_for_running_tasks 20 0 env.waitResps) }
  | .ok (some svc, st1) =>
      let st2 :=
        match findToken svc.env with
        | some line => { st1 with api_token := splitValueAfterEq line }
        | none => st1
      .ok { st := st2,
            store := store,
            effects := [.getServiceCall],
            ip := sp.serviceName,
            port := sp.port,
            waitResult := none }

/-! ## Association-list and dict lemmas -/

/-- Whether a configuration value is a Python list. -/
def CVal.isList : CVal → Bool
  | .list _ => true
  | _ => false

theorem alookup_aset_self {α β : Type} [DecidableEq α]
    (l : List (α × β)) (k : α) (v : β) :
    alookup (aset l k v) k = some v := by
  induction l with
  | nil => simp [aset, alookup]
  | cons hd tl ih =>
      rcases hd with ⟨k0, w⟩
      by_cases hk : k0 = k
      · subst hk; simp [aset, alookup]
      · simp [aset, alookup, hk, ih]

theorem alookup_aset_ne {α β : Type} [DecidableEq α]
    (l : List (α × β)) (k k' : α) (v : β) (h : k' ≠ k) :
    alookup (aset l k v) k' = alookup l k' := by
  have h' : ¬ (k = k') := fun hh => h hh.symm
  induction l with
  | nil => simp [aset, alookup, h']
  | cons hd tl ih =>
      rcases hd with ⟨k0, w⟩
      by_cases hk : k0 = k
      · subst hk; simp [aset, alookup, h']
      · simp [aset, alookup, hk, ih]

theorem alookup_eq_none_of_not_mem {α β : Type} [DecidableEq α]
    (l : List (α × β)) (k : α) (h : k ∉ l.map Prod.fst) :
    alookup l k = none := by
  induction l with
  | nil => rfl
  | cons hd tl ih =>
      rcases hd with ⟨k0, w⟩
      simp only [List.map_cons, List.mem_cons] at h
      push_neg at h
      have h0 : ¬ (k0 = k) := fun hh => h.1 hh.symm
      simp [alookup, h0, ih h.2]

theorem flookup_fset_self (l : CFields) (k : String) (v : CVal) :
    flookup (fset l k v) k = some v := by
  induction l with
  | nil => simp [fset, flookup]
  | cons k0 w rest ih =>
      by_cases hk : k0 = k
      · subst hk; simp [fset, flookup]
      · simp [fset, flookup, hk, ih]

theorem flookup_fset_ne (l : CFields) (k k' : String) (v : CVal)
    (h : k' ≠ k) :
    flookup (fset l k v) k' = flookup l k' := by
  have h' : ¬ (k = k') := fun hh => h hh.symm
  induction l with
  | nil => simp [fset, flookup, h']
  | cons k0 w rest ih =>
      by_cases hk : k0 = k
      · subst hk; simp [fset, flookup, h']
      · simp [fset, flookup, hk, ih]

/-! ## Lemmas about the `_update_config` loop -/

theorem mergeStep_list_none (c : List (List String × CVal)) (k0 : List String)
    (xs : List Item) (hc : alookup c k0 = none) :
    mergeStep c (k0, CVal.list xs) = .ok (aset c k0 (CVal.list xs)) := by
  simp [mergeStep, hc]

theorem mergeStep_list_some_list (c : List (List String × CVal))
    (k0 : List String) (xs ys : List Item)
    (hc : alookup c k0 = some (CVal.list ys)) :
    mergeStep c (k0, CVal.list xs) = .ok (aset c k0 (CVal.list (xs ++ ys))) := by
  simp [mergeStep, hc]

theorem mergeStep_list_some_nonlist (c : List (List String × CVal))
    (k0 : List String) (xs : List Item) (v : CVal)
    (hc : alookup c k0 = some v) (hv : v.isList = false) :
    mergeStep c (k0, CVal.list xs) = .error .configTypeMismatch := by
  cases v with
  | list ys => simp [CVal.isList] at hv
  | str s => simp [mergeStep, hc]
  | num q => simp [mergeStep, hc]
  | dict d => simp [mergeStep, hc]

theorem mergeStep_ok_aset (c : List (List String × CVal))
    (kv : List String × CVal) (c1 : List (List String × CVal))
    (h : mergeStep c kv = .ok c1) : ∃ w, c1 = aset c kv.1 w := by
  rcases kv with ⟨k0, v0⟩
  cases v0 with
  | list xs =>
      cases hc : alookup c k0 with
      | none =>
          rw [mergeStep_list_none c k0 xs hc] at h
          exact ⟨_, (Except.ok.inj h).symm⟩
      | some w =>
          cases w with
          | list ys =>
              rw [mergeStep_list_some_list c k0 xs ys hc] at h
              exact ⟨_, (Except.ok.inj h).symm⟩
          | str s =>
              rw [mergeStep_list_some_nonlist c k0 xs _ hc rfl] at h
              exact Except.noConfusion h
          | num q =>
              rw [mergeStep_list_some_nonlist c k0 xs _ hc rfl] at h
              exact Except.noConfusion h
          | dict d =>
              rw [mergeStep_list_some_nonlist c k0 xs _ hc rfl] at h
              exact Except.noConfusion h
  | str s => exact ⟨_, (Except.ok.inj h).symm⟩
  | num q => exact ⟨_, (Except.ok.inj h).symm⟩
  | dict d => exact ⟨_, (Except.ok.inj h).symm⟩

theorem mergeStep_error_eq (c : List (List String × CVal))
    (kv : List String × CVal) (e : Err)
    (h : mergeStep c kv = .error e) : e = .configTypeMismatch := by
  rcases kv with ⟨k0, v0⟩
  cases v0 with
  | list xs =>
      cases hc : alookup c k0 with
      | none =>
          rw [mergeStep_list_none c k0 xs hc] at h
          exact Except.noConfusion h
      | some w =>
          cases w with
          | list ys =>
              rw [mergeStep_list_some_list c k0 xs ys hc] at h
              exact Except.noConfusion h
          | str s =>
              rw [mergeStep_list_some_nonlist c k0 xs _ hc rfl] at h
              exact (Except.error.inj h).symm
          | num q =>
              rw [mergeStep_list_some_nonlist c k0 xs _ hc rfl] at h
              exact (Except.error.inj h).symm
          | dict d =>
              rw [mergeStep_list_some_nonlist c k0 xs _ hc rfl] at h
              exact (Except.error.inj h).symm
  | str s => exact Except.noConfusion h
  | num q => exact Except.noConfusion h
  | dict d => exact Except.noConfusion h

theorem mergeFlat_cons_ok (c c1 : List (List String × CVal))
    (kv : List String × CVal) (rest : List (List String × CVal))
    (h : mergeStep c kv = .ok c1) :
    mergeFlat c (kv :: rest) = mergeFlat c1 rest := by
  simp [mergeFlat, h]

theorem mergeFlat_cons_error (c : List (List String × CVal))
    (kv : List String × CVal) (rest : List (List String × CVal)) (e : Err)
    (h : mergeStep c kv = .error e) :
    mergeFlat c (kv :: rest) = .error e := by
  simp [mergeFlat, h]

theorem mergeFlat_alookup (u : List (List String × CVal)) :
    ∀ (c m : List (List String × CVal)),
    (u.map Prod.fst).Nodup → mergeFlat c u = .ok m → ∀ k : List String,
    (alookup u k = none → alookup m k = alookup c k) ∧
    (∀ xs ys, alookup u k = some (CVal.list xs) →
        alookup c k = some (CVal.list ys) →
        alookup m k = some (CVal.list (xs ++ ys))) ∧
    (∀ xs, alookup u k = some (CVal.list xs) → alookup c k = none →
        alookup m k = some (CVal.list xs)) ∧
    (∀ v, alookup u k = some v → v.isList = false → alookup m k = some v) := by
  induction u with
  | nil =>
      intro c m _ hm k
      have hcm : c = m := Except.ok.inj hm
      subst hcm
      refine ⟨fun _ => rfl, ?_, ?_, ?_⟩
      · intro xs ys h1 _; exact absurd h1 (by simp [alookup])
      · intro xs h1 _; exact absurd h1 (by simp [alookup])
      · intro v h1 _; exact absurd h1 (by simp [alookup])
  | cons kv rest ih =>
      intro c m hnd hm k
      rcases kv with ⟨k0, v0⟩
      simp only [List.map_cons, List.nodup_cons] at hnd
      by_cases hkk : k0 = k
      · subst hkk
        have hrest : alookup rest k0 = none :=
          alookup_eq_none_of_not_mem rest k0 hnd.1
        have hu : alookup ((k0, v0) :: rest) k0 = some v0 := by simp [alookup]
        cases v0 with
        | list xs =>
            cases hc : alookup c k0 with
            | none =>
                rw [mergeFlat_cons_ok c _ _ rest (mergeStep_list_none c k0 xs hc)] at hm
                have IH := ih _ m hnd.2 hm
                have hat : alookup m k0 = some (CVal.list xs) := by
                  rw [(IH k0).1 hrest, alookup_aset_self]
                refine ⟨?_, ?_, ?_, ?_⟩
                · intro h; rw [hu] at h; cases h
                · intro xs' ys' _ h2; cases h2
                · intro xs' h1 _
                  rw [hu] at h1
                  simp only [Option.some.injEq, CVal.list.injEq] at h1
                  subst h1; exact hat
                · intro v h1 hv
                  rw [hu] at h1
                  simp only [Option.some.injEq] at h1
                  subst h1; simp [CVal.isList] at hv
            | some w =>
                cases w with
                | list ys =>
                    rw [mergeFlat_cons_ok c _ _ rest
                      (mergeStep_list_some_list c k0 xs ys hc)] at hm
                    have IH := ih _ m hnd.2 hm
                    have hat : alookup m k0 = some (CVal.list (xs ++ ys)) := by
                      rw [(IH k0).1 hrest, alookup_aset_self]
                    refine ⟨?_, ?_, ?_, ?_⟩
                    · intro h; rw [hu] at h; cases h
                    · intro xs' ys' h1 h2
                      rw [hu] at h1
                      simp only [Option.some.injEq, CVal.list.injEq] at h1
                      subst h1
                      simp only [Option.some.injEq, CVal.list.injEq] at h2
                      subst h2
                      exact hat
                    · intro xs' _ h2; cases h2
                    · intro v h1 hv
                      rw [hu] at h1
                      simp only [Option.some.injEq] at h1
                      subst h1; simp [CVal.isList] at hv
                | str s =>
                    rw [mergeFlat_cons_error c _ rest _
                      (mergeStep_list_some_nonlist c k0 xs _ hc rfl)] at hm
                    exact Except.noConfusion hm
                | num q =>
                    rw [mergeFlat_cons_error c _ rest _
                      (mergeStep_list_some_nonlist c k0 xs _ hc rfl)] at hm
                    exact Except.noConfusion hm
                | dict d =>
                    rw [mergeFlat_cons_error c _ rest _
                      (mergeStep_list_some_nonlist c k0 xs _ hc rfl)] at hm
                    exact Except.noConfusion hm
        | str s =>
            rw [mergeFlat_cons_ok c (aset c k0 (CVal.str s)) (k0, CVal.str s) rest rfl] at hm
            have IH := ih _ m hnd.2 hm
            have hat : alookup m k0 = some (CVal.str s) := by
              rw [(IH k0).1 hrest, alookup_aset_self]
            refine ⟨?_, ?_, ?_, ?_⟩
            · intro h; rw [hu] at h; cases h
            · intro xs' ys' h1 _; rw [hu] at h1; simp at h1
            · intro xs' h1 _; rw [hu] at h1; simp at h1
            · intro v h1 _
              rw [hu] at h1
              simp only [Option.some.injEq] at h1
              subst h1; exact hat
        | num q =>
            rw [mergeFlat_cons_ok c (aset c k0 (CVal.num q)) (k0, CVal.num q) rest rfl] at hm
            have IH := ih _ m hnd.2 hm
            have hat : alookup m k0 = some (CVal.num q) := by
              rw [(IH k0).1 hrest, alookup_aset_self]
            refine ⟨?_, ?_, ?_, ?_⟩
            · intro h; rw [hu] at h; cases h
            · intro xs' ys' h1 _; rw [hu] at h1; simp at h1
            · intro xs' h1 _; rw [hu] at h1; simp at h1
            · intro v h1 _
              rw [hu] at h1
              simp only [Option.some.injEq] at h1
              subst h1; exact hat
        | dict d =>
            rw [mergeFlat_cons_ok c (aset c k0 (CVal.dict d)) (k0, CVal.dict d) rest rfl] at hm
            have IH := ih _ m hnd.2 hm
            have hat : alookup m k0 = some (CVal.dict d) := by
              rw [(IH k0).1 hrest, alookup_aset_self]
            refine ⟨?_, ?_, ?_, ?_⟩
            · intro h; rw [hu] at h; cases h
            · intro xs' ys' h1 _; rw [hu] at h1; simp at h1
            · intro xs' h1 _; rw [hu] at h1; simp at h1
            · intro v h1 _
              rw [hu] at h1
              simp only [Option.some.injEq] at h1
              subst h1; exact hat
      · have hu : alookup ((k0, v0) :: rest) k = alookup rest k := by
          simp [alookup, hkk]
        cases hstep : mergeStep c (k0, v0) with
        | error e =>
            rw [mergeFlat_cons_error c _ rest e hstep] at hm
            exact Except.noConfusion hm
        | ok c1 =>
            rw [mergeFlat_cons_ok c c1 _ rest hstep] at hm
            obtain ⟨w, hw⟩ := mergeStep_ok_aset c (k0, v0) c1 hstep
            have hfr : alookup c1 k = alookup c k := by
              rw [hw]
              exact alookup_aset_ne c k0 k w (fun hh => hkk hh.symm)
            have IH := ih c1 m hnd.2 hm
            rw [hu]
            refine ⟨?_, ?_, ?_, ?_⟩
            · intro h; rw [(IH k).1 h]; exact hfr
            · intro xs ys h1 h2
              exact (IH k).2.1 xs ys h1 (by rw [hfr]; exact h2)
            · intro xs h1 h2
              exact (IH k).2.2.1 xs h1 (by rw [hfr]; exact h2)
            · intro v h1 hv; exact (IH k).2.2.2 v h1 hv

theorem mergeFlat_mismatch (u : List (List String × CVal)) :
    ∀ (c : List (List String × CVal)) (k : List String) (xs : List Item)
      (v : CVal),
    alookup u k = some (CVal.list xs) → alookup c k = some v →
    v.isList = false →
    mergeFlat c u = .error .configTypeMismatch := by
  induction u with
  | nil => intro c k xs v ho _ _; exact absurd ho (by simp [alookup])
  | cons kv rest ih =>
      intro c k xs v ho hb hv
      rcases kv with ⟨k0, v0⟩
      by_cases hkk : k0 = k
      · subst hkk
        have hv0 : v0 = CVal.list xs := by simpa [alookup] using ho
        subst hv0
        rw [mergeFlat_cons_error c _ rest _
          (mergeStep_list_some_nonlist c k0 xs v hb hv)]
      · have ho' : alookup rest k = some (CVal.list xs) := by
          simpa [alookup, hkk] using ho
        cases hstep : mergeStep c (k0, v0) with
        | error e =>
            rw [mergeFlat_cons_error c _ rest e hstep,
              mergeStep_error_eq c (k0, v0) e hstep]
        | ok c1 =>
            obtain ⟨w, hw⟩ := mergeStep_ok_aset c (k0, v0) c1 hstep
            have hfr : alookup c1 k = some v := by
              rw [hw, alookup_aset_ne c k0 k w (fun hh => hkk hh.symm)]
              exact hb
            rw [mergeFlat_cons_ok c c1 _ rest hstep]
            exact ih c1 k xs v ho' hfr hv

/-! ## Claim C1 -/

/-- Claim C1: `_update_config(base, override)` flattens both mappings and, for
each flattened key of the override, concatenates override-first when the
override value is a list and the key exists in the flattened base (which then
also holds a list, the merge having succeeded), and otherwise replaces or
introduces the value; flattened base keys absent from the override are
unchanged. -/
theorem update_config_merge_semantics
    (base override : CFields) (m : List (List String × CVal))
    (hnd : ((flatten override).map Prod.fst).Nodup)
    (hm : mergeFlat (flatten base) (flatten override) = .ok m) :
    _update_config base override = .ok (unflatten m) ∧
    (∀ k xs ys, alookup (flatten override) k = some (CVal.list xs) →
        alookup (flatten base) k = some (CVal.list ys) →
        alookup m k = some (CVal.list (xs ++ ys))) ∧
    (∀ k xs, alookup (flatten override) k = some (CVal.list xs) →
        alookup (flatten base) k = none →
        alookup m k = some (CVal.list xs)) ∧
    (∀ k v, alookup (flatten override) k = some v → v.isList = false →
        alookup m k = some v) ∧
    (∀ k, alookup (flatten override) k = none →
        alookup m k = alookup (flatten base) k) := by
  have H := mergeFlat_alookup (flatten override) (flatten base) m hnd hm
  refine ⟨by simp [_update_config, hm], ?_, ?_, ?_, ?_⟩
  · intro k xs ys h1 h2; exact (H k).2.1 xs ys h1 h2
  · intro k xs h1 h2; exact (H k).2.2.1 xs h1 h2
  · intro k v h1 h2; exact (H k).2.2.2 v h1 h2
  · intro k h1; exact (H k).1 h1

/-- Base configuration for the C1 witness. -/
def mergeBaseW : CFields :=
  .cons "image" (.str "a") (.cons "env" (.list [.str "A=1"]) .nil)

/-- Override configuration for the C1 witness. -/
def mergeOvW : CFields :=
  .cons "env" (.list [.str "B=2"]) (.cons "replicas" (.num 2) .nil)

/-- Flat merge result for the C1 witness. -/
def mergeResW : List (List String × CVal) :=
  [(["image"], CVal.str "a"),
   (["env"], CVal.list [.str "B=2", .str "A=1"]),
   (["replicas"], CVal.num 2)]

theorem update_config_merge_semantics_witness :
    ((flatten mergeOvW).map Prod.fst).Nodup ∧
    alookup mergeResW ["env"] = some (CVal.list [.str "B=2", .str "A=1"]) := by
  have hnd : ((flatten mergeOvW).map Prod.fst).Nodup := by decide
  have hm : mergeFlat (flatten mergeBaseW) (flatten mergeOvW) = .ok mergeResW := rfl
  exact ⟨hnd,
    (update_config_merge_semantics mergeBaseW mergeOvW mergeResW hnd hm).2.1
      ["env"] [Item.str "B=2"] [Item.str "A=1"] rfl rfl⟩

/-! ## Claim C10 -/

/-- Claim C10: when the override holds a list at a flattened key that exists
in the flattened base with a non-list value, `_update_config` fails with the
type-mismatch contract violation (the `assert` on line 425) instead of
producing a merged configuration. -/
theorem update_config_list_mismatch
    (base override : CFields) (k : List String)
    (xs : List Item) (v : CVal)
    (ho : alookup (flatten override) k = some (CVal.list xs))
    (hb : alookup (flatten base) k = some v)
    (hv : v.isList = false) :
    _update_config base override = .error .configTypeMismatch := by
  have := mergeFlat_mismatch (flatten override) (flatten base) k xs v ho hb hv
  simp [_update_config, this]

theorem update_config_list_mismatch_witness :
    _update_config (.cons "mounts" (.str "notalist") .nil)
      (.cons "mounts" (.list [.str "/a:/b"]) .nil) =
      .error .configTypeMismatch :=
  update_config_list_mismatch
    (.cons "mounts" (.str "notalist") .nil)
    (.cons "mounts" (.list [.str "/a:/b"]) .nil)
    ["mounts"] [.str "/a:/b"] (CVal.str "notalist") rfl rfl rfl

/-! ## Claim C2 -/

theorem pollScan_fst (ts : List Task) : ∀ (run : Option Task) (stops : Nat),
    (pollScan ts run stops).1.isSome =
      (run.isSome || ts.any (fun t => t.state == "running")) := by
  induction ts with
  | nil => intro run stops; simp [pollScan]
  | cons t rest ih =>
      intro run stops
      by_cases h : t.state = "running"
      · simp [pollScan, h, ih]
      · have hb : (t.state == "running") = false := by simp [h]
        simp [pollScan, h, ih, hb]

theorem pollScan_snd (ts : List Task) : ∀ (run : Option Task) (stops : Nat),
    (pollScan ts run stops).2 =
      stops + ts.countP (fun t => t.state == "rejected") := by
  induction ts with
  | nil => intro run stops; simp [pollScan]
  | cons t rest ih =>
      intro run stops
      by_cases h : t.state = "rejected"
      · have hb : (t.state == "rejected") = true := by simp [h]
        simp [pollScan, h, ih, hb, List.countP_cons]
        omega
      · have hb : (t.state == "rejected") = false := by simp [h]
        simp [pollScan, h, ih, hb, List.countP_cons]

/-- Claim C2 (amended): `poll` walks the whole task list; its verdict is
healthy (`none`) exactly when some task is in state `running` — a rejected
task triggers one `stop()` (removal) call per rejected task but does not by
itself force the unhealthy verdict when a running task is also present; an
empty task list logs the warning and yields the unhealthy verdict with zero
removal calls. -/
theorem poll_task_reconciliation (st : SpState) (ts : List Task) :
    ((∃ t ∈ ts, t.state = "running") → (poll st ts).verdict = none) ∧
    ((¬ ∃ t ∈ ts, t.state = "running") → (poll st ts).verdict = some 0) ∧
    (poll st ts).stopCalls = ts.countP (fun t => t.state == "rejected") ∧
    (ts = [] → (poll st ts).warned = true ∧ (poll st ts).verdict = some 0 ∧
        (poll st ts).stopCalls = 0) := by
  have hfst := pollScan_fst ts none 0
  have hsnd := pollScan_snd ts none 0
  simp only [Option.isSome_none, Bool.false_or] at hfst
  simp only [Nat.zero_add] at hsnd
  refine ⟨?_, ?_, ?_, ?_⟩
  · rintro ⟨t, ht, hs⟩
    have hany : ts.any (fun t => t.state == "running") = true :=
      List.any_eq_true.mpr ⟨t, ht, by simp [hs]⟩
    simp [poll, hfst, hany]
  · intro hne
    have hany : ts.any (fun t => t.state == "running") = false := by
      rw [Bool.eq_false_iff]
      intro hcontra
      obtain ⟨t, ht, hp⟩ := List.any_eq_true.mp hcontra
      exact hne ⟨t, ht, by simpa using hp⟩
    simp [poll, hfst, hany]
  · simp [poll, hsnd]
  · rintro rfl
    simp [poll, pollScan]

/-- Task list for the C2 counterexample: one running and one rejected task. -/
def pollCexTasks : List Task :=
  [⟨"t1", "running", ""⟩, ⟨"t2", "rejected", "boom"⟩]

theorem poll_rejected_but_healthy_cex :
    pollCexTasks.any (fun t => t.state == "rejected") = true ∧
    (poll ⟨"sid", "tok"⟩ pollCexTasks).verdict = none ∧
    (poll ⟨"sid", "tok"⟩ pollCexTasks).stopCalls = 1 := by decide

theorem poll_task_reconciliation_witness :
    (poll ⟨"s", ""⟩ [⟨"t1", "running", ""⟩]).verdict = none :=
  (poll_task_reconciliation ⟨"s", ""⟩ [⟨"t1", "running", ""⟩]).1
    ⟨⟨"t1", "running", ""⟩, by simp, rfl⟩

/-! ## Claims C3 and C4 -/

/-- A task in the `running` state, for concrete wait-loop runs. -/
def runTaskW : Task := ⟨"r1", "running", ""⟩

/-- Claim C3 (evaluation at the failing input): with 25 consecutive empty
task-list responses and `max_attempts = 20`, the loop is still running — the
attempt-budget check is inside the per-task `for` loop and never fires on an
empty list, so the loop never exits false from the counter; and the exit on a
running task returns Python `None` (`returnedNone`), never a boolean `True`. -/
theorem wait_empty_task_lists_never_exit :
    wait_for_running_tasks 20 0 (List.replicate 25 []) = .looping 25 ∧
    wait_for_running_tasks 20 0 [[runTaskW]] = .returnedNone := by decide

theorem forTasks_done_flags (ts : List Task) :
    ∀ (attempt maxA : Nat) (r p r' p' : Bool),
    forTasks attempt maxA r p ts = .done r' p' →
    (p' = true ↔ (p = true ∨ ∃ t ∈ ts, t.state = "preparing")) := by
  induction ts with
  | nil =>
      intro attempt maxA r p r' p' h
      simp only [forTasks, ForRes.done.injEq] at h
      simp [h.2.symm]
  | cons t rest ih =>
      intro attempt maxA r p r' p' h
      simp only [forTasks] at h
      by_cases hrej : t.state = "rejected" ∨ maxA < attempt
      · rw [if_pos hrej] at h; cases h
      · rw [if_neg hrej] at h
        have IH := ih attempt maxA _ _ r' p' h
        constructor
        · intro hp'
          rcases IH.mp hp' with hflag | ⟨t', ht', hs⟩
          · by_cases hps : t.state = "preparing"
            · exact Or.inr ⟨t, by simp, hps⟩
            · rw [if_neg hps] at hflag
              exact Or.inl hflag
          · exact Or.inr ⟨t', by simp [ht'], hs⟩
        · intro hor
          apply IH.mpr
          rcases hor with hp | ⟨t', ht', hs⟩
          · left
            by_cases hps : t.state = "preparing" <;> simp [hps, hp]
          · rcases List.mem_cons.mp ht' with rfl | hmem
            · left; simp [hs]
            · right; exact ⟨t', hmem, hs⟩

/-- A task in the `preparing` state, for concrete wait-loop runs. -/
def prepTaskW : Task := ⟨"p1", "preparing", ""⟩

/-- Claim C4: the attempt counter advances only on iterations in which no
task is preparing — an iteration whose task list holds a preparing task (and
which neither exits early nor sees a running task) continues with the counter
unchanged, one with no preparing task continues with the counter incremented;
in particular 25 consecutive single-preparing-task responses leave the
counter at 0 with the loop still running (no false exit from the counter). -/
theorem wait_preparing_does_not_count (maxA attempt : Nat) (ts : List Task)
    (rest : List (List Task)) (r' p' : Bool)
    (hdone : forTasks attempt maxA false false ts = .done r' p')
    (hrun : r' = false) :
    ((∃ t ∈ ts, t.state = "preparing") →
        wait_for_running_tasks maxA attempt (ts :: rest) =
          wait_for_running_tasks maxA attempt rest) ∧
    ((¬ ∃ t ∈ ts, t.state = "preparing") →
        wait_for_running_tasks maxA attempt (ts :: rest) =
          wait_for_running_tasks maxA (attempt + 1) rest) ∧
    wait_for_running_tasks 20 0 (List.replicate 25 [prepTaskW]) =
      .looping 0 := by
  subst hrun
  have hp := forTasks_done_flags ts attempt maxA false false false p' hdone
  simp only [Bool.false_eq_true, false_or] at hp
  refine ⟨?_, ?_, by decide⟩
  · intro hex
    have : p' = true := hp.mpr hex
    subst this
    simp [wait_for_running_tasks, hdone]
  · intro hex
    have : p' = false := by
      rw [Bool.eq_false_iff]
      intro hcontra
      exact hex (hp.mp hcontra)
    subst this
    simp [wait_for_running_tasks, hdone]

theorem wait_preparing_does_not_count_witness :
    wait_for_running_tasks 20 0 ([prepTaskW] :: []) =
      wait_for_running_tasks 20 0 [] :=
  (wait_preparing_does_not_count 20 0 [prepTaskW] [] false true
      (by decide) rfl).1 ⟨prepTaskW, by simp, rfl⟩

/-! ## Claim C5 -/

/-- Claim C5: `get_service` caches the service id on success, clears the
stored id and reports the service absent on `NotFound` and on a server-side
`APIError`, and re-raises a client-side `APIError` unchanged to the caller. -/
theorem get_service_lookup_policy (st : SpState) (svc : ServiceAttrs)
    (m : String) :
    get_service st (.found svc) =
      .ok (some svc, { st with service_id := svc.id }) ∧
    get_service st .notFound = .ok (none, { st with service_id := "" }) ∧
    get_service st (.apiError true m) =
      .ok (none, { st with service_id := "" }) ∧
    get_service st (.apiError false m) = .error (.apiError false m) :=
  ⟨rfl, rfl, rfl, rfl⟩

/-! ## Claim C6 -/

/-- Claim C6: `stop` never raises — each possible outcome of the removal call
(success, `NotFound`, any `APIError`) is swallowed, and the state always goes
through `clear_state`, resetting the stored service id. -/
theorem stop_never_raises (st : SpState) (resp : RemoveResp) :
    stop st resp = .ok (clear_state st) ∧ (clear_state st).service_id = "" := by
  cases resp <;> exact ⟨rfl, rfl⟩

/-! ## Claim C7 -/

/-- Claim C7: when the lookup inside `start` finds the service with the
deterministic name, no create call is issued, the stored id is the found
service's id (hence unchanged on a second sequential `start`), and the API
token is recovered from the first environment entry starting with
`JPY_API_TOKEN=` (unchanged when no such entry exists). -/
theorem start_adoption (sp : SpawnerM) (st : SpState) (store : List MountCell)
    (env : DockerEnv) (svc : ServiceAttrs) (h : env.lookupResp = .found svc) :
    ∃ out : StartOut, start sp st store env = .ok out ∧
      out.effects = [Effect.getServiceCall] ∧
      (∀ cfg, Effect.createServiceCall cfg ∉ out.effects) ∧
      out.st.service_id = svc.id ∧
      (st.service_id = svc.id → out.st.service_id = st.service_id) ∧
      (∀ line, findToken svc.env = some line →
          out.st.api_token = splitValueAfterEq line) ∧
      (findToken svc.env = none → out.st.api_token = st.api_token) ∧
      out.ip = sp.serviceName ∧ out.port = sp.port ∧ out.store = store := by
  cases hf : findToken svc.env with
  | some line =>
      have hstart : start sp st store env = .ok
          { st := ⟨svc.id, splitValueAfterEq line⟩,
            store := store, effects := [Effect.getServiceCall],
            ip := sp.serviceName, port := sp.port, waitResult := none } := by
        simp [start, get_service, services_get_call, h, hf]
      refine ⟨_, hstart, rfl, ?_, rfl, fun heq => heq.symm, ?_, ?_, rfl, rfl, rfl⟩
      · intro cfg; simp
      · intro line' hl; cases hl; rfl
      · intro hn; cases hn
  | none =>
      have hstart : start sp st store env = .ok
          { st := { st with service_id := svc.id },
            store := store, effects := [Effect.getServiceCall],
            ip := sp.serviceName, port := sp.port, waitResult := none } := by
        simp [start, get_service, services_get_call, h, hf]
      refine ⟨_, hstart, rfl, ?_, rfl, fun heq => heq.symm, ?_, ?_, rfl, rfl, rfl⟩
      · intro cfg; simp
      · intro line' hl; cases hl
      · intro _; rfl

/-- Found service for the C7 witness, carrying an API token in its env. -/
def svcW7 : ServiceAttrs :=
  ⟨"abc1234", ["PATH=/usr/bin", "JPY_API_TOKEN=tok123"]⟩

/-- Docker responses for the C7 witness: the lookup finds `svcW7`. -/
def envW7 : DockerEnv := ⟨.found svcW7, "unused", []⟩

/-- Spawner inputs for the C7 witness. -/
def spW7 : SpawnerM :=
  ⟨"alice", "", "jupyter-alice", [], [], [], none, none, none, none, .nil,
   none, 8888⟩

theorem start_adoption_witness :
    (start spW7 ⟨"abc1234", "old"⟩ [] envW7).map
      (fun o => (o.st.api_token, o.st.service_id, o.effects.length)) =
      .ok ("tok123", "abc1234", 1) := by
  obtain ⟨out, hout, heff, _, hid, _, htok, _, _, _, _⟩ :=
    start_adoption spW7 ⟨"abc1234", "old"⟩ [] envW7 svcW7 rfl
  have h1 : out.st.api_token = "tok123" :=
    (htok "JPY_API_TOKEN=tok123" (by decide)).trans (by decide)
  rw [hout]
  simp [Except.map, h1, hid, heff, svcW7]

/-! ## Claim C9 -/

/-- The caller-supplied labels of a merged configuration: the labels dict
when one is present, otherwise empty. -/
def callerLabels (cfg1 : CFields) : CFields :=
  match flookup cfg1 "labels" with
  | some (CVal.dict m) => m
  | _ => .nil

theorem flookup_dictUpdate_not_mem (upd : CFields) :
    ∀ (m : CFields) (k : String), k ∉ keysF upd →
    flookup (dictUpdate m upd) k = flookup m k := by
  induction upd with
  | nil => intro m k _; rfl
  | cons k0 v0 rest ih =>
      intro m k h
      simp only [keysF, List.mem_cons] at h
      push_neg at h
      have e : dictUpdate m (.cons k0 v0 rest) =
          dictUpdate (fset m k0 v0) rest := rfl
      rw [e, ih (fset m k0 v0) k h.2, flookup_fset_ne m k0 k v0 h.1]

theorem flookup_dictUpdate_computed (sp : SpawnerM) (m : CFields) :
    flookup (dictUpdate m (computedLabels sp)) "org.jupyterhub.user" =
      some (CVal.str sp.username) ∧
    flookup (dictUpdate m (computedLabels sp)) "org.jupyterhub.server" =
      some (CVal.str sp.servername) ∧
    flookup (dictUpdate m (computedLabels sp)) "org.jupyterhub.profile" =
      some (CVal.str (profileName sp)) := by
  have e : dictUpdate m (computedLabels sp) =
      fset (fset (fset m "org.jupyterhub.user" (CVal.str sp.username))
          "org.jupyterhub.server" (CVal.str sp.servername))
        "org.jupyterhub.profile" (CVal.str (profileName sp)) := rfl
  rw [e]
  refine ⟨?_, ?_, ?_⟩
  · rw [flookup_fset_ne _ _ _ _ (by decide), flookup_fset_ne _ _ _ _ (by decide),
      flookup_fset_self]
  · rw [flookup_fset_ne _ _ _ _ (by decide), flookup_fset_self]
  · rw [flookup_fset_self]

theorem withLabels_ok_labels (sp : SpawnerM) (cfg1 cfg2 : CFields)
    (h : withLabels sp cfg1 = .ok cfg2) :
    ∃ L, cfg2 = fset cfg1 "labels" (CVal.dict L) ∧
      L = dictUpdate (callerLabels cfg1) (computedLabels sp) := by
  unfold withLabels at h
  cases hl : flookup cfg1 "labels" with
  | none =>
      rw [hl] at h
      refine ⟨computedLabels sp, (Except.ok.inj h).symm, ?_⟩
      have hcl : callerLabels cfg1 = .nil := by unfold callerLabels; rw [hl]
      rw [hcl]
      rfl
  | some v =>
      cases v with
      | dict m =>
          rw [hl] at h
          refine ⟨dictUpdate m (computedLabels sp), (Except.ok.inj h).symm, ?_⟩
          have hcl : callerLabels cfg1 = m := by unfold callerLabels; rw [hl]
          rw [hcl]
      | str s => rw [hl] at h; exact Except.noConfusion h
      | num q => rw [hl] at h; exact Except.noConfusion h
      | list xs => rw [hl] at h; exact Except.noConfusion h

theorem labels_shape (sp : SpawnerM) (cfg1 : CFields) (L : CFields)
    (hLdef : L = dictUpdate (callerLabels cfg1) (computedLabels sp)) :
    flookup L "org.jupyterhub.user" = some (CVal.str sp.username) ∧
    flookup L "org.jupyterhub.server" = some (CVal.str sp.servername) ∧
    flookup L "org.jupyterhub.profile" = some (CVal.str (profileName sp)) ∧
    (∀ k, k ≠ "org.jupyterhub.user" → k ≠ "org.jupyterhub.server" →
        k ≠ "org.jupyterhub.profile" →
        flookup L k = flookup (callerLabels cfg1) k) := by
  subst hLdef
  obtain ⟨h1, h2, h3⟩ := flookup_dictUpdate_computed sp (callerLabels cfg1)
  refine ⟨h1, h2, h3, ?_⟩
  intro k hk1 hk2 hk3
  apply flookup_dictUpdate_not_mem
  simp only [computedLabels, keysF, List.mem_cons, List.not_mem_nil, or_false]
  push_neg
  exact ⟨hk1, hk2, hk3⟩

/-- Claim C9: every configuration built by `get_service_config` carries a
labels dict holding the computed owner, server and profile labels; at every
other key the caller-supplied labels of the merged configuration are kept,
and on a collision at a computed key the computed label wins (the computed
labels are written last by `dict.update`). -/
theorem get_service_config_label_invariant (sp : SpawnerM)
    (store : List MountCell) (cfg : CFields) (store' : List MountCell)
    (h : get_service_config sp store = .ok (cfg, store')) :
    ∃ cfg1 L, mergedConfig sp = .ok cfg1 ∧
      flookup cfg "labels" = some (CVal.dict L) ∧
      flookup L "org.jupyterhub.user" = some (CVal.str sp.username) ∧
      flookup L "org.jupyterhub.server" = some (CVal.str sp.servername) ∧
      flookup L "org.jupyterhub.profile" = some (CVal.str (profileName sp)) ∧
      (∀ k, k ≠ "org.jupyterhub.user" → k ≠ "org.jupyterhub.server" →
          k ≠ "org.jupyterhub.profile" →
          flookup L k = flookup (callerLabels cfg1) k) := by
  unfold get_service_config at h
  cases hmc : mergedConfig sp with
  | error e => rw [hmc] at h; exact Except.noConfusion h
  | ok cfg1 =>
      simp only [hmc] at h
      cases hwl : withLabels sp cfg1 with
      | error e => rw [hwl] at h; exact Except.noConfusion h
      | ok cfg2 =>
          simp only [hwl] at h
          obtain ⟨L, hc2, hLdef⟩ := withLabels_ok_labels sp cfg1 cfg2 hwl
          have hlab2 : flookup cfg2 "labels" = some (CVal.dict L) := by
            rw [hc2, flookup_fset_self]
          obtain ⟨hl1, hl2, hl3, hl4⟩ := labels_shape sp cfg1 L hLdef
          have hdone : flookup cfg "labels" = some (CVal.dict L) := by
            cases hmnt : flookup cfg2 "mounts" with
            | none =>
                simp only [hmnt] at h
                have hcfg : cfg2 = cfg := congrArg Prod.fst (Except.ok.inj h)
                rw [← hcfg]
                exact hlab2
            | some v =>
                cases v with
                | list ms =>
                    simp only [hmnt] at h
                    by_cases hemp : ms.isEmpty
                    · rw [if_pos hemp] at h
                      have hcfg : cfg2 = cfg := congrArg Prod.fst (Except.ok.inj h)
                      rw [← hcfg]
                      exact hlab2
                    · rw [if_neg hemp] at h
                      have hcfg : fset cfg2 "mounts"
                          (CVal.list (formatMounts (tmplNamespace sp) store ms).1) =
                          cfg := congrArg Prod.fst (Except.ok.inj h)
                      rw [← hcfg]
                      rw [flookup_fset_ne cfg2 "mounts" "labels" _ (by decide)]
                      exact hlab2
                | str s =>
                    simp only [hmnt] at h
                    have hcfg : cfg2 = cfg := congrArg Prod.fst (Except.ok.inj h)
                    rw [← hcfg]; exact hlab2
                | num q =>
                    simp only [hmnt] at h
                    have hcfg : cfg2 = cfg := congrArg Prod.fst (Except.ok.inj h)
                    rw [← hcfg]; exact hlab2
                | dict d =>
                    simp only [hmnt] at h
                    have hcfg : cfg2 = cfg := congrArg Prod.fst (Except.ok.inj h)
                    rw [← hcfg]; exact hlab2
          exact ⟨cfg1, L, rfl, hdone, hl1, hl2, hl3, hl4⟩

/-- Spawner inputs for the C9 witness: the admin default config supplies a
caller label and a colliding computed-label key. -/
def spW9 : SpawnerM :=
  ⟨"alice", "srv1", "svc", [], [], [], none, none, none, none,
   .cons "labels"
     (.dict (.cons "team" (.str "ml")
       (.cons "org.jupyterhub.user" (.str "evil") .nil))) .nil,
   none, 8888⟩

/-- The merged configuration of the C9 witness, before the label stage. -/
def cfg1W9 : CFields :=
  .cons "name" (.str "svc") (.cons "command" (.list [])
    (.cons "args" (.list []) (.cons "env" (.list [])
      (.cons "labels"
        (.dict (.cons "team" (.str "ml")
          (.cons "org.jupyterhub.user" (.str "evil") .nil))) .nil))))

/-- The labels dict of the C9 witness configuration: the caller label kept,
the colliding computed key overwritten in place, the other computed keys
appended. -/
def labsW9 : CFields :=
  .cons "team" (.str "ml") (.cons "org.jupyterhub.user" (.str "alice")
    (.cons "org.jupyterhub.server" (.str "srv1")
      (.cons "org.jupyterhub.profile" (.str "") .nil)))

/-- The configuration `get_service_config` builds for the C9 witness. -/
def cfgW9 : CFields :=
  .cons "name" (.str "svc") (.cons "command" (.list [])
    (.cons "args" (.list []) (.cons "env" (.list [])
      (.cons "labels" (.dict labsW9) .nil))))

theorem get_service_config_label_invariant_witness :
    get_service_config spW9 [] = .ok (cfgW9, []) ∧
    flookup labsW9 "org.jupyterhub.user" = some (CVal.str "alice") ∧
    flookup labsW9 "team" = some (CVal.str "ml") := by
  have h : get_service_config spW9 [] = .ok (cfgW9, []) := rfl
  obtain ⟨cfg1, L, hmc, hlab, hu, _, _, hkeep⟩ :=
    get_service_config_label_invariant spW9 [] cfgW9 [] h
  have hL : flookup cfgW9 "labels" = some (CVal.dict labsW9) := by decide
  rw [hlab] at hL
  have hLL : L = labsW9 := CVal.dict.inj (Option.some.inj hL)
  have hc1 : cfg1 = cfg1W9 := by
    have hmc' : mergedConfig spW9 = .ok cfg1W9 := rfl
    rw [hmc'] at hmc
    exact (Except.ok.inj hmc).symm
  refine ⟨h, ?_, ?_⟩
  · rw [← hLL]; exact hu
  · rw [← hLL]
    rw [hkeep "team" (by decide) (by decide) (by decide), hc1]
    decide

/-! ## Claim C8 -/

/-- Claim C8 (amended): spec building contacts no orchestrator (the embedding
of `get_service_config` consumes and produces only configuration data and the
mount store), and string-form mounts are rebuilt functionally — but the
transformation is not pure: `_format_mount` overwrites the `target` and
`source` of every dict-form mount descriptor in place in the shared store.
Store cells not referenced by the formatted mounts list are unchanged, and
every store change made by `get_service_config` factors through
`formatMounts` on the merged mounts list. -/
theorem get_service_config_mount_mutation :
    (∀ ns store s, _format_mount ns store (Item.str s) =
        (Item.str (formatString ns s), store)) ∧
    (∀ ns store i, _format_mount ns store (Item.mref i) =
        (Item.mref i, store.set i
          ⟨formatString ns (store.getD i ⟨"", ""⟩).target,
           formatString ns (store.getD i ⟨"", ""⟩).source⟩)) ∧
    (∀ ns store ms j, Item.mref j ∉ ms →
        ((formatMounts ns store ms).2)[j]? = store[j]?) ∧
    (∀ sp store cfg store',
        get_service_config sp store = .ok (cfg, store') →
        ∃ ms, store' = (formatMounts (tmplNamespace sp) store ms).2) := by
  refine ⟨fun _ _ _ => rfl, fun _ _ _ => rfl, ?_, ?_⟩
  · intro ns store ms
    induction ms generalizing store with
    | nil => intro j _; rfl
    | cons m rest ih =>
        intro j hj
        simp only [List.mem_cons] at hj
        push_neg at hj
        cases m with
        | str s =>
            simp only [formatMounts, _format_mount]
            exact ih store j hj.2
        | mref i =>
            have hij : i ≠ j := fun hh => hj.1 (by rw [hh])
            simp only [formatMounts, _format_mount]
            rw [ih _ j hj.2]
            exact List.getElem?_set_ne hij
  · intro sp store cfg store' h
    unfold get_service_config at h
    cases hmc : mergedConfig sp with
    | error e => rw [hmc] at h; exact Except.noConfusion h
    | ok cfg1 =>
        simp only [hmc] at h
        cases hwl : withLabels sp cfg1 with
        | error e => rw [hwl] at h; exact Except.noConfusion h
        | ok cfg2 =>
            simp only [hwl] at h
            cases hmnt : flookup cfg2 "mounts" with
            | none =>
                simp only [hmnt] at h
                have hst : store = store' := congrArg Prod.snd (Except.ok.inj h)
                exact ⟨[], hst.symm⟩
            | some v =>
                cases v with
                | list ms =>
                    simp only [hmnt] at h
                    by_cases hemp : ms.isEmpty
                    · rw [if_pos hemp] at h
                      have hst : store = store' :=
                        congrArg Prod.snd (Except.ok.inj h)
                      exact ⟨[], hst.symm⟩
                    · rw [if_neg hemp] at h
                      have hst : (formatMounts (tmplNamespace sp) store ms).2 =
                          store' := congrArg Prod.snd (Except.ok.inj h)
                      exact ⟨ms, hst.symm⟩
                | str s =>
                    simp only [hmnt] at h
                    have hst : store = store' := congrArg Prod.snd (Except.ok.inj h)
                    exact ⟨[], hst.symm⟩
                | num q =>
                    simp only [hmnt] at h
                    have hst : store = store' := congrArg Prod.snd (Except.ok.inj h)
                    exact ⟨[], hst.symm⟩
                | dict d =>
                    simp only [hmnt] at h
                    have hst : store = store' := congrArg Prod.snd (Except.ok.inj h)
                    exact ⟨[], hst.symm⟩

/-- Spawner inputs for the C8 counterexample: the admin default config holds
one dict-form mount descriptor, living in store cell 0. -/
def spW8 : SpawnerM :=
  ⟨"alice", "", "svc", [], [], [], none, none, none, none,
   .cons "mounts" (.list [.mref 0]) .nil, none, 8888⟩

/-- The mount store of the C8 counterexample: the one cell holds the dict
mount shared with the configuration input. -/
def storeW8 : List MountCell := [⟨"/home/{username}", "vol-{username}"⟩]

theorem get_service_config_mutates_store_cex :
    (get_service_config spW8 storeW8).map Prod.snd =
      .ok [MountCell.mk "/home/alice" "vol-alice"] ∧
    [MountCell.mk "/home/alice" "vol-alice"] ≠ storeW8 := ⟨rfl, by decide⟩

theorem get_service_config_mount_mutation_witness :
    (formatMounts [("username", "alice")] [⟨"/a", "/b"⟩, ⟨"/c", "/d"⟩]
      [Item.mref 1]).2[0]? = some ⟨"/a", "/b"⟩ := by
  rw [(get_service_config_mount_mutation).2.2.1 [("username", "alice")]
    [⟨"/a", "/b"⟩, ⟨"/c", "/d"⟩] [Item.mref 1] 0 (by decide)]
  rfl

end SwarmSpawner
